import Mathlib

/-!
Shallow embedding of the TTS-Phoenix pipeline (src/main.py).

The embedding covers the parts of the program the specification claims
talk about:

* input sanitization in `TTSApp.handle_input`
  (Python: `text.strip()` followed by `re.sub(r'[^\w\s.,!?"\x27]', '', text)`);
* the voice-blend computation and the guarded synthesis call in
  `TTSThread.run`;
* `TTSApp.play_audio`, which reads the voice embeddings from the (possibly
  still uninitialised) Kokoro model object;
* the playback worker `AudioThread` (a FIFO queue drained by a single
  worker loop that polls with a bounded one-second timeout and plays one
  buffer to completion per iteration);
* `TTSApp.load_config` and the default selection made in `TTSApp.init_ui`.

Strings are modelled as `List Char`, numpy sample vectors and voice
embeddings as functions `Nat → ℚ`, and the audio worker as a labelled
transition system whose events are exactly the atomic actions of the
Python worker loop.
-/

/-! ## Sanitization (TTSApp.handle_input, src/main.py lines 181-188) -/

/-- Whitespace characters removed by Python `str.strip()` (ASCII range). -/
def pyIsSpace (c : Char) : Bool :=
  c == ' ' || c == '\t' || c == '\n' || c == '\r' ||
  c == Char.ofNat 0x0B || c == Char.ofNat 0x0C

/-- Word characters, the `\w` class of the regular expression in
`handle_input` (letters, digits and the underscore). -/
def wordChar (c : Char) : Bool :=
  c.isAlpha || c.isDigit || c == '_'

/-- Characters kept by `re.sub(r'[^\w\s.,!?"\x27]', '', text)`: word
characters, whitespace, and the punctuation marks `. , ! ? " '`. -/
def keptChar (c : Char) : Bool :=
  wordChar c || pyIsSpace c ||
  c == '.' || c == ',' || c == '!' || c == '?' || c == '"' || c == '\''

/-- Python `str.strip()`: drop whitespace from both ends. -/
def pyStrip (l : List Char) : List Char :=
  List.rdropWhile pyIsSpace (l.dropWhile pyIsSpace)

/-- The sanitization applied in `handle_input`: first `strip()`, then the
regular-expression substitution deleting every character outside the kept
class. -/
def sanitizeText (l : List Char) : List Char :=
  (pyStrip l).filter keptChar

/-! ## Voice blending and synthesis (TTSThread.run, lines 43-50) -/

/-- Voice blend computed in `TTSThread.run`:
`blend = blend_value / 100; blended_voice = voice1 * blend + voice2 * (1 - blend)`.
Embeddings are modelled as rational-valued vectors indexed by `Nat`. -/
def blended_voice (voice1 voice2 : Nat → ℚ) (blend_value : ℚ) : Nat → ℚ :=
  let blend := blend_value / 100
  fun i => voice1 i * blend + voice2 i * (1 - blend)

/-- The linear-interpolation law as written in the specification:
`v1*(b/100) + v2*(1-b/100)`. Stated separately so that the code-side
`blended_voice` can be compared against it. -/
def specBlendedVoice (v1 v2 : Nat → ℚ) (b : ℚ) : Nat → ℚ :=
  fun i => v1 i * (b / 100) + v2 i * (1 - b / 100)

/-- A PCM buffer: float samples plus a sample rate, as emitted by
`kokoro.create` and consumed by `sd.play`. -/
structure AudioBuf where
  samples : List ℚ
  sampleRate : Nat
deriving DecidableEq, Repr

/-- The external Kokoro model collaborator: `get_voice_style` resolves a
voice name to an embedding, `create` runs synthesis on a text with a
voice embedding, a speed and a language tag and may fail. -/
structure Kokoro where
  get_voice_style : String → (Nat → ℚ)
  create : List Char → (Nat → ℚ) → ℚ → String → Except String AudioBuf

/-- One synthesis request as constructed by `TTSApp.play_audio`: the text
plus the two resolved embeddings and the blend slider value. -/
structure TTSRequest where
  text : List Char
  voice1 : Nat → ℚ
  voice2 : Nat → ℚ
  blend_value : ℚ

/-- Body of `TTSThread.run`: compute the blended voice, call
`kokoro.create(text, voice=blended_voice, speed=1.0, lang="en-us")` and
emit the resulting buffer on success; the surrounding `try/except` catches
any error, prints it, and emits nothing (`none`). -/
def tts_run (k : Kokoro) (text : List Char) (voice1 voice2 : Nat → ℚ)
    (blend_value : ℚ) : Option AudioBuf :=
  match k.create text (blended_voice voice1 voice2 blend_value) 1 "en-us" with
  | Except.ok buf => some buf
  | Except.error _ => none

/-- Buffers delivered to the playback queue by a batch of synthesis
requests: each request runs `tts_run` in its own worker thread, and only
successful runs emit a buffer. -/
def deliveredBuffers (k : Kokoro) (reqs : List TTSRequest) : List AudioBuf :=
  reqs.filterMap (fun r => tts_run k r.text r.voice1 r.voice2 r.blend_value)

/-! ## Dispatch (TTSApp.play_audio, lines 190-196, and handle_input) -/

/-- Python exceptions that the interaction thread can raise. The only one
relevant here is the `AttributeError` raised by attribute access on
`None`. -/
inductive PyException where
  | attributeError (msg : String)
deriving DecidableEq, Repr

/-- `TTSApp.play_audio`: reads the blend slider and resolves both voice
embeddings via `self.kokoro.get_voice_style(...)`. `self.kokoro` is `None`
until the background model load finishes, and attribute access on `None`
raises `AttributeError`; otherwise a `TTSRequest` is built and its worker
thread started. -/
def play_audio (kokoro : Option Kokoro) (voice1Name voice2Name : String)
    (blend_value : ℚ) (text : List Char) : Except PyException TTSRequest :=
  match kokoro with
  | none =>
      Except.error
        (PyException.attributeError
          "NoneType object has no attribute get_voice_style")
  | some k =>
      Except.ok
        ⟨text, k.get_voice_style voice1Name, k.get_voice_style voice2Name,
          blend_value⟩

/-- Observable outcome of one `handle_input` invocation: the interaction
log after the call, whether the text box was cleared, the request that
was dispatched (if any), and the exception that escaped the slot (if
any). -/
structure HandleOutcome where
  log : List (List Char)
  cleared : Bool
  dispatched : Option TTSRequest
  raised : Option PyException

/-- `TTSApp.handle_input`: sanitize the input; if the result is empty do
nothing; otherwise clear the box, append the sanitized text to the log
(`log_text` runs first) and then call `play_audio`, which may raise after
the log append has already happened. -/
def handle_input (kokoro : Option Kokoro) (voice1Name voice2Name : String)
    (blend_value : ℚ) (raw : List Char) (log : List (List Char)) :
    HandleOutcome :=
  let text := sanitizeText raw
  if text.isEmpty then ⟨log, false, none, none⟩
  else
    match play_audio kokoro voice1Name voice2Name blend_value text with
    | Except.ok r => ⟨log ++ [text], true, some r, none⟩
    | Except.error e => ⟨log ++ [text], true, none, some e⟩

/-! ## The playback worker (AudioThread, lines 52-74) -/

/-- Control position of the playback worker loop: at the top of the
`while self.running` loop, blocked inside `audio_queue.get(timeout=1)`,
or exited (after `run` returned). -/
inductive Phase where
  | loopTop
  | inGet
  | exited
deriving DecidableEq, Repr

/-- State of one `AudioThread` instance together with the play history:
the pending FIFO queue, the `running` flag, the worker phase, the
sequence of buffers already handed to `sd.play`, and the full sequence of
buffers ever enqueued. -/
structure AudioState (α : Type) where
  queue : List α
  running : Bool
  phase : Phase
  played : List α
  enqueued : List α
deriving DecidableEq, Repr

/-- Freshly constructed `AudioThread`: empty queue, `running = True`,
worker about to test the loop condition. -/
def initAudio {α : Type} : AudioState α :=
  ⟨[], true, Phase.loopTop, [], []⟩

/-- Atomic events of the playback pipeline. `enqueue` is
`add_to_queue` (any thread, any time); the worker alternates between
testing the loop condition (`loopEnter`/`loopExit`), receiving and
playing the head buffer to completion (`getPlay`, which is
`get` + `sd.play` + `sd.wait` of one loop iteration), and the bounded
one-second poll timeout (`getTimeout`); `stopSignal` is `stop()` setting
`running = False`. -/
inductive AudioStep {α : Type} : AudioState α → AudioState α → Prop where
  | enqueue (s : AudioState α) (b : α) :
      AudioStep s { s with queue := s.queue ++ [b], enqueued := s.enqueued ++ [b] }
  | loopEnter (s : AudioState α) :
      s.phase = Phase.loopTop → s.running = true →
      AudioStep s { s with phase := Phase.inGet }
  | loopExit (s : AudioState α) :
      s.phase = Phase.loopTop → s.running = false →
      AudioStep s { s with phase := Phase.exited }
  | getPlay (s : AudioState α) (b : α) (rest : List α) :
      s.phase = Phase.inGet → s.queue = b :: rest →
      AudioStep s
        { s with phase := Phase.loopTop, queue := rest,
                 played := s.played ++ [b] }
  | getTimeout (s : AudioState α) :
      s.phase = Phase.inGet → s.queue = [] →
      AudioStep s { s with phase := Phase.loopTop }
  | stopSignal (s : AudioState α) :
      AudioStep s { s with running := false }

/-- Deterministic scheduling of the worker alone (no concurrent
enqueues): one atomic action of the loop. -/
def workerStep {α : Type} (s : AudioState α) : AudioState α :=
  match s.phase with
  | Phase.exited => s
  | Phase.loopTop =>
      if s.running then { s with phase := Phase.inGet }
      else { s with phase := Phase.exited }
  | Phase.inGet =>
      match s.queue with
      | [] => { s with phase := Phase.loopTop }
      | b :: rest =>
          { s with phase := Phase.loopTop, queue := rest,
                   played := s.played ++ [b] }

/-- Run the worker for `n` atomic actions. -/
def workerRun {α : Type} (s : AudioState α) : Nat → AudioState α
  | 0 => s
  | Nat.succ n => workerRun (workerStep s) n

/-- Enqueue a batch of buffers in order (`add_to_queue` repeatedly). -/
def enqueueAll {α : Type} (s : AudioState α) (bs : List α) : AudioState α :=
  bs.foldl
    (fun t b => { t with queue := t.queue ++ [b], enqueued := t.enqueued ++ [b] })
    s

/-- Playback produced by the pipeline for a given sequence of synthesis
completions: `play_audio_output` enqueues each completed buffer in
completion order, and the worker drains the queue. -/
def pipelinePlayed {α : Type} (completions : List α) : List α :=
  (workerRun (enqueueAll initAudio completions) (2 * completions.length)).played

/-! ## Configuration (TTSApp.load_config lines 224-229, init_ui 138-146) -/

/-- Parsed config dictionary: each key may be absent. The empty dictionary
is `⟨none, none, none⟩`. -/
structure RawConfig where
  voice1 : Option String
  voice2 : Option String
  blend : Option Nat
deriving DecidableEq, Repr

/-- Effective preferences after `init_ui` ran. -/
structure Preferences where
  voice1 : String
  voice2 : String
  blend : Nat
deriving DecidableEq, Repr

/-- `TTSApp.load_config`: return the parsed JSON dictionary, or the empty
dictionary when the file is missing (`FileNotFoundError`) or malformed
(`json.JSONDecodeError`); `parsed = none` covers both failure cases. -/
def load_config (parsed : Option RawConfig) : RawConfig :=
  match parsed with
  | some c => c
  | none => ⟨none, none, none⟩

/-- Selection made in `TTSApp.init_ui`:
`config.get("voice1", voices[0] if voices else "")`,
`config.get("voice2", voices[1] if len(voices) > 1 else "")`,
`config.get("blend", 50)`. -/
def init_ui_selection (voices : List String) (config : RawConfig) :
    Preferences :=
  { voice1 :=
      config.voice1.getD (match voices with | [] => "" | v :: _ => v)
    voice2 :=
      config.voice2.getD (match voices with | _ :: v :: _ => v | _ => "")
    blend := config.blend.getD 50 }

/-! ## Concrete collaborators used by witnesses -/

/-- A model object whose synthesis always succeeds with a fixed buffer. -/
def testKokoro : Kokoro where
  get_voice_style := fun _ => fun _ => 0
  create := fun _ _ _ _ => Except.ok ⟨[0], 24000⟩

/-- A model object whose synthesis always fails. -/
def failingKokoro : Kokoro where
  get_voice_style := fun _ => fun _ => 0
  create := fun _ _ _ _ => Except.error "onnx inference failed"

/-! ## Helper lemmas: the sanitizer -/

theorem head_of_append {α : Type} (xs ys : List α) (c : α)
    (h : xs.head? = some c) : (xs ++ ys).head? = some c := by
  cases xs with
  | nil => simp at h
  | cons a t => simpa using h

theorem dropWhile_head_not (p : Char → Bool) (l : List Char) (c : Char)
    (h : (l.dropWhile p).head? = some c) : p c = false := by
  induction l with
  | nil => simp [List.dropWhile] at h
  | cons a t ih =>
      by_cases hpa : p a
      · rw [List.dropWhile_cons, if_pos hpa] at h
        exact ih h
      · rw [List.dropWhile_cons, if_neg hpa] at h
        simp only [List.head?_cons, Option.some.injEq] at h
        subst h
        simpa using hpa

theorem dropWhile_of_head_not (p : Char → Bool) (l : List Char)
    (h : ∀ c, l.head? = some c → p c = false) : l.dropWhile p = l := by
  cases l with
  | nil => rfl
  | cons a t =>
      rw [List.dropWhile_cons, if_neg]
      simp [h a rfl]

theorem dropWhile_decomp (p : Char → Bool) (l : List Char) :
    ∃ w, l = w ++ l.dropWhile p := by
  induction l with
  | nil => exact ⟨[], rfl⟩
  | cons a t ih =>
      by_cases hpa : p a
      · obtain ⟨w, hw⟩ := ih
        refine ⟨a :: w, ?_⟩
        rw [List.dropWhile_cons, if_pos hpa, List.cons_append, ← hw]
      · exact ⟨[], by rw [List.dropWhile_cons, if_neg hpa, List.nil_append]⟩

theorem rdropWhile_decomp (p : Char → Bool) (m : List Char) :
    ∃ w, m = List.rdropWhile p m ++ w := by
  obtain ⟨w, hw⟩ := dropWhile_decomp p m.reverse
  refine ⟨w.reverse, ?_⟩
  have hm : m.reverse.reverse = (w ++ m.reverse.dropWhile p).reverse := by
    rw [← hw]
  simpa [List.rdropWhile, List.reverse_append] using hm

theorem pyStrip_head_not (l : List Char) (c : Char)
    (h : (pyStrip l).head? = some c) : pyIsSpace c = false := by
  obtain ⟨w, hw⟩ := rdropWhile_decomp pyIsSpace (l.dropWhile pyIsSpace)
  have hm : (l.dropWhile pyIsSpace).head? = some c := by
    rw [hw]
    exact head_of_append _ _ _ h
  exact dropWhile_head_not pyIsSpace l c hm

theorem mem_pyStrip (l : List Char) (c : Char) (h : c ∈ pyStrip l) : c ∈ l := by
  obtain ⟨w, hw⟩ := rdropWhile_decomp pyIsSpace (l.dropWhile pyIsSpace)
  have h1 : c ∈ l.dropWhile pyIsSpace := by
    rw [hw]
    exact List.mem_append_left _ h
  obtain ⟨v, hv⟩ := dropWhile_decomp pyIsSpace l
  rw [hv]
  exact List.mem_append_right _ h1

theorem pyStrip_idem (l : List Char) : pyStrip (pyStrip l) = pyStrip l := by
  show List.rdropWhile pyIsSpace ((pyStrip l).dropWhile pyIsSpace) = pyStrip l
  rw [dropWhile_of_head_not pyIsSpace (pyStrip l) (pyStrip_head_not l)]
  exact List.rdropWhile_idempotent pyIsSpace (l.dropWhile pyIsSpace)

theorem mem_sanitize_kept (s : List Char) (c : Char) (h : c ∈ sanitizeText s) :
    keptChar c = true :=
  List.of_mem_filter h

theorem sanitize_sanitize (s : List Char) :
    sanitizeText (sanitizeText s) = pyStrip (sanitizeText s) := by
  show (pyStrip (sanitizeText s)).filter keptChar = pyStrip (sanitizeText s)
  rw [List.filter_eq_self]
  intro c hc
  exact mem_sanitize_kept s c (mem_pyStrip _ c hc)

/-! ## Helper lemmas: the playback worker -/

theorem audio_invariant {α : Type} (s : AudioState α)
    (h : Relation.ReflTransGen AudioStep (initAudio : AudioState α) s) :
    s.played ++ s.queue = s.enqueued := by
  induction h with
  | refl => rfl
  | tail hab hstep ih =>
      cases hstep with
      | enqueue b =>
          simp only []
          rw [← List.append_assoc, ih]
      | loopEnter h1 h2 => exact ih
      | loopExit h1 h2 => exact ih
      | getPlay b rest h1 h2 =>
          simp only []
          rw [h2] at ih
          rw [List.append_assoc]
          simpa using ih
      | getTimeout h1 h2 => exact ih
      | stopSignal => exact ih

theorem exited_frozen {α : Type} (s t : AudioState α)
    (hs : s.phase = Phase.exited)
    (h : Relation.ReflTransGen AudioStep s t) :
    t.played = s.played ∧ t.phase = Phase.exited := by
  induction h with
  | refl => exact ⟨rfl, hs⟩
  | tail hab hstep ih =>
      cases hstep with
      | enqueue b => exact ⟨ih.1, ih.2⟩
      | loopEnter h1 h2 => simp [ih.2] at h1
      | loopExit h1 h2 => simp [ih.2] at h1
      | getPlay b rest h1 h2 => simp [ih.2] at h1
      | getTimeout h1 h2 => simp [ih.2] at h1
      | stopSignal => exact ⟨ih.1, ih.2⟩

theorem workerRun_stop {α : Type} (s : AudioState α)
    (hq : s.queue = []) (hr : s.running = false) :
    workerRun s 2 = { s with phase := Phase.exited } := by
  obtain ⟨q, r, ph, pl, e⟩ := s
  simp only at hq hr
  subst hq
  subst hr
  cases ph <;> simp [workerRun, workerStep]

theorem workerRun_drain {α : Type} (q pl e : List α) :
    workerRun (AudioState.mk q true Phase.loopTop pl e) (2 * q.length) =
      AudioState.mk [] true Phase.loopTop (pl ++ q) e := by
  induction q generalizing pl with
  | nil => simp [workerRun]
  | cons b rest ih =>
      have h2 : 2 * (b :: rest).length = Nat.succ (Nat.succ (2 * rest.length)) := by
        simp [List.length_cons]
        ring
      rw [h2]
      show workerRun (AudioState.mk rest true Phase.loopTop (pl ++ [b]) e)
        (2 * rest.length) = _
      rw [ih (pl ++ [b])]
      simp

theorem enqueueAll_mk {α : Type} (q : List α) (r : Bool) (ph : Phase)
    (pl e : List α) (bs : List α) :
    enqueueAll (AudioState.mk q r ph pl e) bs =
      AudioState.mk (q ++ bs) r ph pl (e ++ bs) := by
  induction bs generalizing q e with
  | nil => simp [enqueueAll]
  | cons b t ih =>
      show enqueueAll (AudioState.mk (q ++ [b]) r ph pl (e ++ [b])) t = _
      rw [ih (q ++ [b]) (e ++ [b])]
      simp

/-! ## Claim theorems -/

/-- C1: for every batch of buffers enqueued to the playback queue in
order, the played sequence is at every reachable state of the pipeline a
prefix of the enqueued sequence, and a batch of N enqueued buffers is
played by exactly N play events in enqueue order. Each play event is one
atomic worker iteration (`sd.play` followed by `sd.wait` inside the single
worker loop), so every play completes before the next begins. -/
theorem playback_fifo {α : Type} (bs : List α) (s : AudioState α)
    (h : Relation.ReflTransGen AudioStep (initAudio : AudioState α) s) :
    (∃ rest, s.played ++ rest = s.enqueued) ∧
    (workerRun (enqueueAll initAudio bs) (2 * bs.length)).played = bs := by
  refine ⟨⟨s.queue, audio_invariant s h⟩, ?_⟩
  show (workerRun (enqueueAll (AudioState.mk [] true Phase.loopTop [] []) bs)
    (2 * bs.length)).played = bs
  rw [enqueueAll_mk]
  simp only [List.nil_append]
  rw [workerRun_drain]
  simp

/-- Witness for C1 at the batch [1, 2, 3] and the initial state. -/
theorem playback_fifo_witness :
    (∃ rest, (initAudio : AudioState Nat).played ++ rest =
      (initAudio : AudioState Nat).enqueued) ∧
    (workerRun (enqueueAll (initAudio : AudioState Nat) [1, 2, 3])
      (2 * [1, 2, 3].length)).played = [1, 2, 3] :=
  playback_fifo [1, 2, 3] initAudio Relation.ReflTransGen.refl

/-- C2 counterexample: two requests are submitted in order 1, 2 but their
syntheses complete in the order 2, 1 (concurrent TTSThread workers are
unordered). `play_audio_output` enqueues in completion order, so the
pipeline plays [2, 1]: a permutation of the submission order [1, 2] but
not equal to it, refuting playback-equals-submission-order. -/
theorem playback_not_submission_order :
    pipelinePlayed [2, 1] = [2, 1] ∧
    List.Perm [2, 1] [1, 2] ∧ ([2, 1] : List Nat) ≠ [1, 2] :=
  ⟨rfl, by decide, by decide⟩

/-- C2 amended: the pipeline plays buffers in the order their syntheses
complete (the order they are enqueued by `play_audio_output`), which
equals submission order only when completions happen in submission
order. -/
theorem playback_equals_completion_order {α : Type} (completions : List α) :
    pipelinePlayed completions = completions := by
  show (workerRun (enqueueAll (AudioState.mk [] true Phase.loopTop [] [])
    completions) (2 * completions.length)).played = completions
  rw [enqueueAll_mk]
  simp only [List.nil_append]
  rw [workerRun_drain]
  simp

/-- C3 counterexample: with the model still uninitialised (`self.kokoro`
is `None`), submitting "Hi" appends to the InteractionLog but dispatches
nothing, because `play_audio` raises after `log_text` already ran — so
the log-append and the dispatch are not atomic as claimed. -/
theorem log_without_dispatch :
    (handle_input none "af_sarah" "am_adam" 50 "Hi".toList []).log =
      ["Hi".toList] ∧
    (handle_input none "af_sarah" "am_adam" 50 "Hi".toList []).dispatched =
      none :=
  ⟨rfl, rfl⟩

/-- C3 amended: provided the model has finished initialising,
`handle_input` appends to the log and dispatches a synthesis request if
and only if the sanitized text is non-empty, the two actions happen
together, and no exception escapes the slot; when the model is still
uninitialised the log append can happen without a dispatch. -/
theorem handle_input_atomic (k : Kokoro) (voice1Name voice2Name : String)
    (blend_value : ℚ) (raw : List Char) (log : List (List Char)) :
    (handle_input (some k) voice1Name voice2Name blend_value raw log).raised
      = none ∧
    (sanitizeText raw = [] →
      (handle_input (some k) voice1Name voice2Name blend_value raw log).log
        = log ∧
      (handle_input (some k) voice1Name voice2Name blend_value raw
        log).dispatched = none) ∧
    (sanitizeText raw ≠ [] →
      (handle_input (some k) voice1Name voice2Name blend_value raw log).log
        = log ++ [sanitizeText raw] ∧
      ∃ r, (handle_input (some k) voice1Name voice2Name blend_value raw
        log).dispatched = some r ∧ r.text = sanitizeText raw) := by
  by_cases hemp : sanitizeText raw = []
  · refine ⟨?_, fun _ => ⟨?_, ?_⟩, fun hne => absurd hemp hne⟩ <;>
      simp [handle_input, hemp]
  · refine ⟨?_, fun habs => absurd habs hemp, fun _ => ⟨?_, ?_⟩⟩
    · simp [handle_input, play_audio, List.isEmpty_eq_true, hemp]
    · simp [handle_input, play_audio, List.isEmpty_eq_true, hemp]
    · refine ⟨⟨sanitizeText raw, k.get_voice_style voice1Name,
        k.get_voice_style voice2Name, blend_value⟩, ?_, rfl⟩
      simp [handle_input, play_audio, List.isEmpty_eq_true, hemp]

/-- Witness for C3 amended at a concrete model object and input. -/
theorem handle_input_atomic_witness :
    (handle_input (some testKokoro) "a" "b" 50 " Hi! ".toList []).log =
      [] ++ [sanitizeText " Hi! ".toList] ∧
    ∃ r, (handle_input (some testKokoro) "a" "b" 50 " Hi! ".toList
      []).dispatched = some r ∧ r.text = sanitizeText " Hi! ".toList :=
  (handle_input_atomic testKokoro "a" "b" 50 " Hi! ".toList []).2.2
    (by decide)

/-- C4: submitting a synthesis request while the model is still
uninitialised does not drop the request silently as the claim states:
`play_audio` immediately raises `AttributeError` (attribute access on
`None`) into the interaction-thread slot. The theorem evaluates the code
at the failing input. -/
theorem play_audio_model_not_ready_raises :
    play_audio none "af_sarah" "am_adam" 50 "Hi".toList =
      Except.error (PyException.attributeError
        "NoneType object has no attribute get_voice_style") :=
  rfl

/-- C5: for blend percentages 0, 50 and 100 (indeed for every rational
blend value) the embedding that `tts_run` passes to the external
synthesize call equals `v1*(b/100) + v2*(1-b/100)`, the linear
interpolation law of the specification, exactly. -/
theorem blend_linear_interpolation (v1 v2 : Nat → ℚ) (b : ℚ)
    (h : b = 0 ∨ b = 50 ∨ b = 100) :
    blended_voice v1 v2 b = specBlendedVoice v1 v2 b :=
  rfl

/-- Witness for C5 at blend 50 and two concrete embeddings. -/
theorem blend_linear_interpolation_witness :
    blended_voice (fun _ => (1 : ℚ)) (fun _ => 3) 50 =
      specBlendedVoice (fun _ => (1 : ℚ)) (fun _ => 3) 50 :=
  blend_linear_interpolation (fun _ => 1) (fun _ => 3) 50
    (Or.inr (Or.inl rfl))

/-- C6: every character of the sanitized text lies in the kept class
(word characters, whitespace, and `. , ! ? " '`), and the concrete input
"Hello <world>! 100%" sanitizes to "Hello world! 100". -/
theorem sanitize_char_class (s : List Char) (c : Char)
    (h : c ∈ sanitizeText s) :
    keptChar c = true ∧
    sanitizeText "Hello <world>! 100%".toList = "Hello world! 100".toList :=
  ⟨mem_sanitize_kept s c h, by decide⟩

/-- Witness for C6 at a concrete input and character. -/
theorem sanitize_char_class_witness :
    keptChar 'H' = true ∧
    sanitizeText "Hello <world>! 100%".toList = "Hello world! 100".toList :=
  sanitize_char_class "Hi".toList 'H' (by decide)

/-- C7: when the external model call fails, the worker body catches the
error and emits no buffer for that request, and the failing request does
not change the buffers delivered by the other requests of the batch. -/
theorem synthesis_error_dropped (k : Kokoro) (r : TTSRequest) (e : String)
    (h : k.create r.text (blended_voice r.voice1 r.voice2 r.blend_value) 1
      "en-us" = Except.error e)
    (pre post : List TTSRequest) :
    tts_run k r.text r.voice1 r.voice2 r.blend_value = none ∧
    deliveredBuffers k (pre ++ r :: post) =
      deliveredBuffers k pre ++ deliveredBuffers k post := by
  have hnone : tts_run k r.text r.voice1 r.voice2 r.blend_value = none := by
    unfold tts_run
    rw [h]
  refine ⟨hnone, ?_⟩
  unfold deliveredBuffers
  rw [List.filterMap_append, List.filterMap_cons]
  simp [hnone]

/-- Witness for C7 at a model object whose synthesis always fails. -/
theorem synthesis_error_dropped_witness :
    tts_run failingKokoro "Hi".toList (fun _ => 0) (fun _ => 0) 50 = none ∧
    deliveredBuffers failingKokoro
        ([] ++ (⟨"Hi".toList, fun _ => 0, fun _ => 0, 50⟩ : TTSRequest) :: []) =
      deliveredBuffers failingKokoro [] ++ deliveredBuffers failingKokoro [] :=
  synthesis_error_dropped failingKokoro
    ⟨"Hi".toList, fun _ => 0, fun _ => 0, 50⟩ "onnx inference failed" rfl [] []

/-- C8: after `stop()` sets `running` to false with the queue idle, the
worker reaches the exited state within two atomic actions (the bounded
one-second poll wakes it, re-checks the flag, and the loop returns, so
the join in `stop()` terminates promptly); and from the exited state no
event sequence — enqueues included — ever adds a play. -/
theorem stop_idle_no_more_plays {α : Type} (s t : AudioState α)
    (hq : s.queue = []) (hr : s.running = false)
    (ht : Relation.ReflTransGen AudioStep (workerRun s 2) t) :
    (workerRun s 2).phase = Phase.exited ∧ t.played = s.played := by
  have h2 : workerRun s 2 = { s with phase := Phase.exited } :=
    workerRun_stop s hq hr
  have hf := exited_frozen (workerRun s 2) t (by rw [h2]) ht
  refine ⟨by rw [h2], ?_⟩
  rw [hf.1, h2]

/-- Witness for C8: an idle stopped instance, followed by one further
enqueue after the worker exited; the played history stays [5]. -/
theorem stop_idle_no_more_plays_witness :
    (workerRun (AudioState.mk ([] : List Nat) false Phase.loopTop [5] [5])
      2).phase = Phase.exited ∧
    (AudioState.mk [7] false Phase.exited [5] ([5] ++ [7])).played = [5] :=
  stop_idle_no_more_plays
    (AudioState.mk ([] : List Nat) false Phase.loopTop [5] [5])
    (AudioState.mk [7] false Phase.exited [5] ([5] ++ [7])) rfl rfl
    (Relation.ReflTransGen.single
      (AudioStep.enqueue
        (workerRun (AudioState.mk ([] : List Nat) false Phase.loopTop [5] [5])
          2) 7))

/-- C9: with the config file missing or malformed, `load_config` yields
the empty dictionary and `init_ui` selects the first catalog voice, the
second catalog voice and blend 50; the at-least-two-voices precondition
is the cons-cons catalog pattern. -/
theorem default_preferences_on_missing_config (v1 v2 : String)
    (rest : List String) :
    init_ui_selection (v1 :: v2 :: rest) (load_config none) =
      ⟨v1, v2, 50⟩ :=
  rfl

/-- C10 counterexample: sanitizing "< a>" yields " a" — the filter exposes
a leading space that the initial strip could not remove — and sanitizing
again yields "a", so applying the transform twice differs from applying
it once and the logged text " a" is not a fixed point. -/
theorem sanitize_not_idempotent :
    sanitizeText (sanitizeText "< a>".toList) ≠ sanitizeText "< a>".toList :=
  by decide

/-- C10 amended: a second application of the transform merely strips the
result of the first, and from the second application on the transform is
idempotent; the transform itself is not idempotent and sanitized text is
a fixed point only when its filtered form carries no boundary
whitespace. -/
theorem sanitize_second_application (s : List Char) :
    sanitizeText (sanitizeText s) = pyStrip (sanitizeText s) ∧
    sanitizeText (sanitizeText (sanitizeText s)) =
      sanitizeText (sanitizeText s) := by
  refine ⟨sanitize_sanitize s, ?_⟩
  rw [sanitize_sanitize (sanitizeText s), sanitize_sanitize s, pyStrip_idem]
